import Mathlib

/-!
# BerdyHelper unit test harness (`src/main.cpp`)

A shallow embedding of the harness: the sparse identity prior
(`BerdyData::Priors::initializeSparseMatrixSize`), the contiguity check
(`testBerdyOriginalFixedBaseDynamicEquationSerialization`) and the control flow of
`testBerdySensorMatrices`, `testBerdyOriginalFixedBase`, `testBerdyHelpers` and `main`.

Doubles that the harness only assigns, negates or compares with constants are
represented by their exact rational values.  The `size_t` accumulator of the contiguity
check is a natural number reduced modulo `2 ^ 64` after every addition, and
`ASSERT_EQUAL_DOUBLE` compares its two arguments after their conversion to `double`.
-/

namespace BerdyUnitTest

/-! ## Sparse identity prior -/

/-- One entry `(row, column, value)` of `iDynTree::Triplets`. -/
structure Triplet where
  row : Nat
  column : Nat
  value : ℚ
deriving DecidableEq, Repr

/-- Modelled from the spec: the triplet-assembly primitive (`iDynTree::Triplets`), an external
collaborator; a growing sequence of `(row, column, value)` entries. -/
structure Triplets where
  entries : List Triplet
deriving DecidableEq, Repr

/-- Modelled from the spec: the statement `iDynTree::Triplets identityTriplets;`, a triplet
sequence with no entry yet. -/
def Triplets.empty : Triplets := ⟨[]⟩

/-- Modelled from the spec: the call `reserve(size)` of `iDynTree::Triplets` sets a capacity
only, the entries are unchanged. -/
def Triplets.reserve (t : Triplets) (_size : Nat) : Triplets := t

/-- Modelled from the spec: the triplet-assembly call
`setDiagonalMatrix(startingRow, startingColumn, value, diagonalMatrixSize)` of `iDynTree::Triplets`
adds one entry `(startingRow + i, startingColumn + i, value)` for every
`i < diagonalMatrixSize`. -/
def Triplets.setDiagonalMatrix (t : Triplets) (startingRow startingColumn : Nat) (value : ℚ)
    (diagonalMatrixSize : Nat) : Triplets :=
  ⟨t.entries ++ (List.range diagonalMatrixSize).map
    (fun i => Triplet.mk (startingRow + i) (startingColumn + i) value)⟩

/-- Modelled from the spec: the sparse matrix storage primitive
(`iDynTree::SparseMatrix<ColumnMajor>`), an external collaborator, given by its row count,
column count and nonzero triplets. -/
structure SparseMatrix where
  rows : Nat
  columns : Nat
  nonZeros : List Triplet
deriving DecidableEq, Repr

/-- Modelled from the spec: the call `resize(rows, columns)` of the sparse matrix sets its row
and column count. -/
def SparseMatrix.resize (m : SparseMatrix) (rows columns : Nat) : SparseMatrix :=
  { m with rows := rows, columns := columns }

/-- Modelled from the spec: the call `setFromTriplets(triplets)` of the sparse matrix makes the
given triplets its nonzero content. -/
def SparseMatrix.setFromTriplets (m : SparseMatrix) (triplets : Triplets) : SparseMatrix :=
  { m with nonZeros := triplets.entries }

/-- Modelled from the spec: entry `(i, j)` of a sparse matrix, the stored values at that position
added up, so `0` when nothing is stored there ("zero-valued entries are not materialized"). -/
def SparseMatrix.getValue (m : SparseMatrix) (i j : Nat) : ℚ :=
  ((m.nonZeros.filter (fun t => decide (t.row = i ∧ t.column = j))).map Triplet.value).sum

/-- The function `BerdyData::Priors::initializeSparseMatrixSize(size, matrix)`, lines 51-63. -/
def initializeSparseMatrixSize (size : Nat) (matrix : SparseMatrix) : SparseMatrix :=
  let identityTriplets := Triplets.empty
  let identityTriplets := identityTriplets.reserve size
  let identityTriplets := identityTriplets.setDiagonalMatrix 0 0 1 size
  let matrix := matrix.resize size size
  matrix.setFromTriplets identityTriplets

/-! ## Dynamic variable ordering and the contiguity check -/

/-- How a function of the harness ends: it reaches its end, returns early at a line, stops the
process at a failed assertion (`exit(EXIT_FAILURE)`), or dereferences the empty `pImpl`. -/
inductive Outcome
  | finished
  | returned (line : Nat)
  | assertFailed (line : Nat)
  | emptyPImplDereferenced (line : Nat)
deriving DecidableEq, Repr

/-- Whether the outcome ends the whole process rather than the current function only. -/
def Outcome.stopsProcess : Outcome → Bool
  | Outcome.finished => false
  | Outcome.returned _ => false
  | Outcome.assertFailed _ => true
  | Outcome.emptyPImplDereferenced _ => true

/-- The kinds of dynamic variable listed by the spec (section 2, Variable Ordering Engine). -/
inductive BerdyDynamicVariablesTypes
  | linkNetWrench
  | linkAcceleration
  | jointWrench
  | jointTorque
  | jointAcceleration
  | externalWrench
deriving DecidableEq, Repr

/-- The `range: {offset, size}` of a dynamic variable inside `d`.  The declaration is not in
`src/`; the two fields are read as the unsigned 64-bit values that line 225 adds to the `size_t`
accumulator and line 224 compares with it. -/
structure IndexRange where
  offset : Nat
  size : Nat
deriving DecidableEq, Repr

/-- The record `BerdyDynamicVariable`: `{type, id, range}`. -/
structure BerdyDynamicVariable where
  type : BerdyDynamicVariablesTypes
  id : String
  range : IndexRange
deriving DecidableEq, Repr

/-- The number of low bits of `n` that do not fit in the 53-bit significand of a `double`: how
many times `n` has to be halved to come below `2 ^ 53`, counted with the given number of steps
at most. -/
def droppedBits : Nat → Nat → Nat
  | 0, _ => 0
  | steps + 1, n => if n < 2 ^ 53 then 0 else droppedBits steps (n / 2) + 1

/-- The value of an unsigned 64-bit integer after its conversion to `double`: unchanged below
`2 ^ 53`, otherwise rounded to 53 significant bits, to the nearest value and to the even one
at a tie.  The result is again an integer. -/
def toDouble (n : Nat) : Nat :=
  if n < 2 ^ 53 then n
  else
    let e := droppedBits 64 n
    let q := n / 2 ^ e
    let r := n % 2 ^ e
    let half := 2 ^ (e - 1)
    if r < half then q * 2 ^ e
    else if half < r then (q + 1) * 2 ^ e
    else if q % 2 = 0 then q * 2 ^ e
    else (q + 1) * 2 ^ e

/-- The macro `ASSERT_EQUAL_DOUBLE(val1, val2)` of the test utilities (not in `src/`) on two
unsigned integers: both are converted to `double` and have to agree within the default
tolerance, which for integer-valued doubles means that the converted values are equal.
`true` when the assertion holds. -/
def ASSERT_EQUAL_DOUBLE (val1 val2 : Nat) : Bool :=
  decide (toDouble val1 = toDouble val2)

/-- The loop of `testBerdyOriginalFixedBaseDynamicEquationSerialization`, lines 222-226, started
with the given accumulator: `none` as soon as `ASSERT_EQUAL_DOUBLE(accumulator, offset)` fails,
otherwise the accumulator after the last entry.  The accumulator is a `size_t`, so
`accumulator += size` wraps at `2 ^ 64`. -/
def serializationLoop : List BerdyDynamicVariable → Nat → Option Nat
  | [], accumulator => some accumulator
  | v :: rest, accumulator =>
    if ASSERT_EQUAL_DOUBLE accumulator v.range.offset = true then
      serializationLoop rest ((accumulator + v.range.size) % 2 ^ 64)
    else none

/-- The check `testBerdyOriginalFixedBaseDynamicEquationSerialization(berdy)`, lines 216-230, on the
ordering and the count that `berdy` returns: `finished` when no assertion fails, otherwise the
failed assertion (line 224 inside the loop, line 229 after it). -/
def testBerdyOriginalFixedBaseDynamicEquationSerialization
    (dynVarOrdering : List BerdyDynamicVariable) (nrOfDynamicVariables : Nat) : Outcome :=
  match serializationLoop dynVarOrdering 0 with
  | none => Outcome.assertFailed 224
  | some accumulator =>
    if ASSERT_EQUAL_DOUBLE nrOfDynamicVariables accumulator = true then Outcome.finished
    else Outcome.assertFailed 229

/-- The loop of the check in exact arithmetic, without wrapping and without conversion: the
condition that the assertions of lines 224 and 229 express on values that `double` holds
exactly. -/
def exactSerializationLoop : List BerdyDynamicVariable → Nat → Option Nat
  | [], accumulator => some accumulator
  | v :: rest, accumulator =>
    if accumulator = v.range.offset then exactSerializationLoop rest (accumulator + v.range.size)
    else none

/-- Index `k` of `d` lies in the interval `[offset, offset + size)` of the variable. -/
def BerdyDynamicVariable.covers (v : BerdyDynamicVariable) (k : Nat) : Prop :=
  v.range.offset ≤ k ∧ k < v.range.offset + v.range.size

instance (v : BerdyDynamicVariable) (k : Nat) : Decidable (v.covers k) := by
  unfold BerdyDynamicVariable.covers; infer_instance

/-- The sizes of the entries of an ordering, in order. -/
def rangeSizes (ordering : List BerdyDynamicVariable) : List Nat :=
  ordering.map (fun v => v.range.size)

/-- A `Vector3` of doubles, by its three components. -/
structure Vector3 where
  v0 : ℚ
  v1 : ℚ
  v2 : ℚ
deriving DecidableEq, Repr

/-- A `Vector3` right after its declaration and the call `zero()`. -/
def Vector3.zero : Vector3 := ⟨0, 0, 0⟩

/-- Reading `v(i)`. -/
def Vector3.get (v : Vector3) (i : Nat) : ℚ :=
  match i with
  | 0 => v.v0
  | 1 => v.v1
  | _ => v.v2

/-- The assignment `v(i) = x`. -/
def Vector3.set (v : Vector3) (i : Nat) (x : ℚ) : Vector3 :=
  match i with
  | 0 => { v with v0 := x }
  | 1 => { v with v1 := x }
  | _ => { v with v2 := x }

/-- Componentwise negation. -/
def Vector3.neg (v : Vector3) : Vector3 := ⟨-v.v0, -v.v1, -v.v2⟩

/-- A six-dimensional motion vector (`Twist`, `SpatialAcc`): linear and angular part. -/
structure SpatialMotionVector where
  linearVec3 : Vector3
  angularVec3 : Vector3
deriving DecidableEq, Repr

/-- The call `zero()` on a `Twist` or `SpatialAcc`. -/
def SpatialMotionVector.zero (_m : SpatialMotionVector) : SpatialMotionVector :=
  ⟨⟨0, 0, 0⟩, ⟨0, 0, 0⟩⟩

/-- The call `setLinearVec3(lin)`. -/
def SpatialMotionVector.setLinearVec3 (m : SpatialMotionVector) (lin : Vector3) :
    SpatialMotionVector :=
  { m with linearVec3 := lin }

/-- A rigid `Transform`: the rows of its rotation matrix and its translation. -/
structure Transform where
  rotation : Vector3 × Vector3 × Vector3
  position : Vector3
deriving DecidableEq, Repr

/-- The value `Transform::Identity()`. -/
def Transform.Identity : Transform :=
  ⟨(⟨1, 0, 0⟩, ⟨0, 1, 0⟩, ⟨0, 0, 1⟩), ⟨0, 0, 0⟩⟩

/-- The class `FreeFloatingPos`: world-to-base transform and joint positions. -/
structure FreeFloatingPos where
  worldBasePos : Transform
  jointPos : List ℚ
deriving DecidableEq, Repr

/-- The class `FreeFloatingVel`: base twist and joint velocities. -/
structure FreeFloatingVel where
  baseVel : SpatialMotionVector
  jointVel : List ℚ
deriving DecidableEq, Repr

/-- The class `FreeFloatingAcc`: base acceleration and joint accelerations. -/
structure FreeFloatingAcc where
  baseAcc : SpatialMotionVector
  jointAcc : List ℚ
deriving DecidableEq, Repr

/-! ## Options, events and outcomes of the harness -/

/-- The two BERDY variants. -/
inductive BerdyVariants
  | ORIGINAL_BERDY_FIXED_BASE
  | BERDY_FLOATING_BASE
deriving DecidableEq, Repr

/-- The configuration `BerdyOptions`, with the fields the spec lists (section 3). -/
structure BerdyOptions where
  berdyVariant : BerdyVariants
  baseLink : String
  includeAllNetExternalWrenchesAsSensors : Bool
  includeAllNetExternalWrenchesAsDynamicVariables : Bool
  includeAllJointAccelerationsAsSensors : Bool
  includeAllJointTorquesAsSensors : Bool
  includeFixedBaseExternalWrench : Bool
  jointOnWhichTheInternalWrenchIsMeasured : List String
deriving DecidableEq, Repr

/-- The class `Impl` behind `pImpl`; nothing of its content is read by `testBerdyHelpers` besides
`berdyData.helper`. -/
inductive Impl
  | mk
deriving DecidableEq, Repr

/-- The two `BerdyHelper` objects of `testBerdyHelpers`: the local `berdyHelper` and
`pImpl->berdyData.helper`. -/
inductive Helper
  | berdyHelper
  | pImplHelper
deriving DecidableEq, Repr

/-- The calls made by the harness that the trace records, in program order. -/
inductive Event
  | loadModelAndSensorsFromFile (fileName : String)
  | testingFixedBaseMessage
  | skippingFixedBaseMessage
  | init (helper : Helper) (options : BerdyOptions)
  | checkConsistency (options : BerdyOptions)
  | testBerdySensorMatrices
  | testBerdyOriginalFixedBase
  | testBerdyOriginalFixedBaseDynamicEquationSerialization
  | ForwardPosVelAccKinematics (pos : FreeFloatingPos) (vel : FreeFloatingVel)
      (generalizedProperAccs : FreeFloatingAcc)
  | RNEADynamicPhase
  | updateKinematicsFromFloatingBase (jointPos jointVel : List ℚ)
  | updateKinematicsFromFixedBase (jointPos jointVel : List ℚ) (grav : Vector3)
  | serializeDynamicVariables
  | getBerdyMatrices
  | predictSensorsMeasurementsFromRawBuffers
  | serializeSensorVariables
deriving DecidableEq, Repr

/-- What `getRandomInverseDynamicsInputs` draws (the external wrenches only flow into the
oracles and are not recorded). -/
structure RandomInverseDynamicsInputs where
  pos : FreeFloatingPos
  vel : FreeFloatingVel
  generalizedProperAccs : FreeFloatingAcc
deriving DecidableEq, Repr

/-- What the library answers during one run of `testBerdySensorMatrices` or
`testBerdyOriginalFixedBase` on an initialised helper: the random draw, the boolean results, the
counts, and the outcome of each floating-point comparison. -/
structure BerdyRun where
  random : RandomInverseDynamicsInputs
  getBerdyMatricesOk : Bool
  dynamicsResidualIsZero : Bool
  nrOfSensorsMeasurements : Nat
  predictSensorsMeasurementsOk : Bool
  serializeSensorVariablesOk : Bool
  rowsOfY : Nat
  sizeOfbY : Nat
  yEqualsYFromBerdy : Bool
  dynVarOrdering : List BerdyDynamicVariable
  nrOfDynamicVariables : Nat

/-- What the library answers for one model file: the default-constructed `BerdyOptions`, the
results of loading, the model queries, the result of `init` on the loaded model (`init`) and on
`modelLoader.model()` with `humanSensors` (`hdeInit`), the result of `checkConsistency`, and the
runs on a helper initialised with given options (the number is that of the run). -/
structure Library where
  defaultOptions : BerdyOptions
  loadModelAndSensorsFromFile : Bool
  sensorsIsConsistent : Bool
  getNrOfJoints : Nat
  getJointName : Nat → String
  defaultBaseLinkName : String
  init : BerdyOptions → Bool
  hdeInit : BerdyOptions → Bool
  checkConsistency : BerdyOptions → Bool
  run : Nat → BerdyOptions → BerdyRun

/-! ## The tests -/

/-- The sensor part of `testBerdySensorMatrices`, lines 174-208. -/
def sensorMatricesSensorBlock (run : BerdyRun) : List Event × Outcome :=
  if run.nrOfSensorsMeasurements > 0 then
    let trace := [Event.predictSensorsMeasurementsFromRawBuffers]
    if run.predictSensorsMeasurementsOk = false then (trace, Outcome.assertFailed 185) else
    let trace := trace ++ [Event.serializeSensorVariables]
    if run.serializeSensorVariablesOk = false then (trace, Outcome.assertFailed 187) else
    if run.nrOfSensorsMeasurements ≠ run.rowsOfY then (trace, Outcome.assertFailed 192) else
    if run.nrOfSensorsMeasurements ≠ run.sizeOfbY then (trace, Outcome.assertFailed 193) else
    if run.yEqualsYFromBerdy = false then (trace, Outcome.assertFailed 207) else
    (trace, Outcome.finished)
  else ([], Outcome.finished)

/-- The function `testBerdySensorMatrices(berdy, filename)`, lines 89-209. -/
def testBerdySensorMatrices (run : BerdyRun) : List Event × Outcome :=
  let pos := run.random.pos
  let vel := run.random.vel
  let generalizedProperAccs := run.random.generalizedProperAccs
  let vel := { vel with baseVel := vel.baseVel.setLinearVec3 ⟨0, 0, 0⟩ }
  let trace := [Event.ForwardPosVelAccKinematics pos vel generalizedProperAccs,
    Event.RNEADynamicPhase,
    Event.updateKinematicsFromFloatingBase pos.jointPos vel.jointVel,
    Event.serializeDynamicVariables,
    Event.getBerdyMatrices]
  if run.getBerdyMatricesOk = false then (trace, Outcome.assertFailed 158) else
  if run.dynamicsResidualIsZero = false then (trace, Outcome.assertFailed 172) else
  let sensors := sensorMatricesSensorBlock run
  (trace ++ sensors.1, sensors.2)

/-- The sensor part of `testBerdyOriginalFixedBase`, lines 325-360. -/
def fixedBaseSensorBlock (run : BerdyRun) : List Event × Outcome :=
  if run.nrOfSensorsMeasurements > 0 then
    let trace := [Event.predictSensorsMeasurementsFromRawBuffers]
    if run.predictSensorsMeasurementsOk = false then (trace, Outcome.assertFailed 335) else
    let trace := trace ++ [Event.serializeSensorVariables]
    if run.serializeSensorVariablesOk = false then (trace, Outcome.assertFailed 338) else
    if run.yEqualsYFromBerdy = false then (trace, Outcome.assertFailed 359) else
    (trace, Outcome.finished)
  else ([], Outcome.finished)

/-- The function `testBerdyOriginalFixedBase(berdy, filename)`, lines 232-363. -/
def testBerdyOriginalFixedBase (run : BerdyRun) : List Event × Outcome :=
  let pos := run.random.pos
  let vel := run.random.vel
  let generalizedProperAccs := run.random.generalizedProperAccs
  let grav := Vector3.zero
  let grav := grav.set 2 (-10)
  let baseProperAcc := Vector3.zero
  let baseProperAcc := baseProperAcc.set 2 (-(grav.get 2))
  let pos := { pos with worldBasePos := Transform.Identity }
  let vel := { vel with baseVel := vel.baseVel.zero }
  let generalizedProperAccs :=
    { generalizedProperAccs with baseAcc := generalizedProperAccs.baseAcc.zero }
  let generalizedProperAccs :=
    { generalizedProperAccs with
      baseAcc := generalizedProperAccs.baseAcc.setLinearVec3 baseProperAcc }
  let trace := [Event.ForwardPosVelAccKinematics pos vel generalizedProperAccs,
    Event.RNEADynamicPhase,
    Event.updateKinematicsFromFixedBase pos.jointPos vel.jointVel grav,
    Event.serializeDynamicVariables,
    Event.getBerdyMatrices]
  if run.getBerdyMatricesOk = false then (trace, Outcome.assertFailed 308) else
  if run.dynamicsResidualIsZero = false then (trace, Outcome.assertFailed 322) else
  let sensors := fixedBaseSensorBlock run
  if sensors.2.stopsProcess = true then (trace ++ sensors.1, sensors.2) else
  (trace ++ sensors.1 ++ [Event.testBerdyOriginalFixedBaseDynamicEquationSerialization],
    testBerdyOriginalFixedBaseDynamicEquationSerialization run.dynVarOrdering
      run.nrOfDynamicVariables)

/-- The value of `options` built at lines 380-390 of `testBerdyHelpers`. -/
def fixedBaseOptions (lib : Library) : BerdyOptions :=
  let options := lib.defaultOptions
  let options := { options with berdyVariant := BerdyVariants.ORIGINAL_BERDY_FIXED_BASE }
  let options := { options with includeAllJointAccelerationsAsSensors := false }
  let options := { options with includeAllNetExternalWrenchesAsSensors := false }
  if lib.getNrOfJoints > 0 then
    let jntIdx := lib.getNrOfJoints / 2
    { options with
      jointOnWhichTheInternalWrenchIsMeasured :=
        options.jointOnWhichTheInternalWrenchIsMeasured ++ [lib.getJointName jntIdx] }
  else options

/-- The fixed-base branch of `testBerdyHelpers`, lines 392-407: the events it records and the
value of `options` after it.  The call to `init` of line 393 and the calls to
`testBerdyOriginalFixedBase` of lines 398 and 402 are commented out in the source. -/
def fixedBaseBranch (options : BerdyOptions) : List Event × BerdyOptions :=
  let ok := false
  if ok = true then
    let options := { options with includeAllNetExternalWrenchesAsDynamicVariables := false }
    ([Event.testingFixedBaseMessage, Event.init Helper.berdyHelper options], options)
  else
    ([Event.skippingFixedBaseMessage], options)

/-- The value of `berdyOptions` built at lines 410-419 of `testBerdyHelpers`. -/
def hdeOptions (lib : Library) : BerdyOptions :=
  let baseLink := lib.defaultBaseLinkName
  let berdyOptions := lib.defaultOptions
  let berdyOptions := { berdyOptions with baseLink := baseLink }
  let berdyOptions := { berdyOptions with berdyVariant := BerdyVariants.BERDY_FLOATING_BASE }
  let berdyOptions := { berdyOptions with includeAllNetExternalWrenchesAsSensors := true }
  let berdyOptions :=
    { berdyOptions with includeAllNetExternalWrenchesAsDynamicVariables := true }
  let berdyOptions := { berdyOptions with includeAllJointAccelerationsAsSensors := true }
  let berdyOptions := { berdyOptions with includeAllJointTorquesAsSensors := false }
  { berdyOptions with includeFixedBaseExternalWrench := false }

/-- The value of `options` passed to `init` at line 438. -/
def firstFloatingOptions (options : BerdyOptions) : BerdyOptions :=
  let options := { options with berdyVariant := BerdyVariants.BERDY_FLOATING_BASE }
  { options with includeAllNetExternalWrenchesAsDynamicVariables := true }

/-- The value of `options` passed to `init` at line 447, from its value at line 438. -/
def secondFloatingOptions (options : BerdyOptions) : BerdyOptions :=
  let options := { options with berdyVariant := BerdyVariants.BERDY_FLOATING_BASE }
  let options := { options with includeAllNetExternalWrenchesAsDynamicVariables := true }
  { options with includeAllJointTorquesAsSensors := true }

/-- The floating-base tests of `testBerdyHelpers`, lines 434-449, from the value of `options`
that reaches them. -/
def floatingBaseTests (lib : Library) (options : BerdyOptions) : List Event × Outcome :=
  let options := firstFloatingOptions options
  let ok := lib.init options
  let trace := [Event.init Helper.berdyHelper options]
  if ok = false then (trace, Outcome.assertFailed 439) else
  let first := testBerdySensorMatrices (lib.run 0 options)
  let trace := trace ++ Event.testBerdySensorMatrices :: first.1
  if first.2.stopsProcess = true then (trace, first.2) else
  let options := secondFloatingOptions options
  let ok := lib.init options
  let trace := trace ++ [Event.init Helper.berdyHelper options]
  if ok = false then (trace, Outcome.assertFailed 448) else
  let second := testBerdySensorMatrices (lib.run 1 options)
  (trace ++ Event.testBerdySensorMatrices :: second.1, second.2)

/-- The body of `testBerdyHelpers(fileName)`, lines 365-451, for a given content of the smart
pointer `pImpl`.  Line 422 first dereferences `pImpl`; with an empty pointer the execution
ends there. -/
def testBerdyHelpersFrom (pImpl : Option Impl) (lib : Library) (fileName : String) :
    List Event × Outcome :=
  let ok := lib.loadModelAndSensorsFromFile
  let trace := [Event.loadModelAndSensorsFromFile fileName]
  if lib.sensorsIsConsistent = false then (trace, Outcome.assertFailed 371) else
  if ok = false then (trace, Outcome.assertFailed 372) else
  let options := fixedBaseOptions lib
  let branch := fixedBaseBranch options
  let trace := trace ++ branch.1
  let options := branch.2
  let berdyOptions := hdeOptions lib
  match pImpl with
  | none => (trace, Outcome.emptyPImplDereferenced 422)
  | some _ =>
    let trace := trace ++ [Event.init Helper.pImplHelper berdyOptions]
    if lib.hdeInit berdyOptions = false then (trace, Outcome.returned 424) else
    let trace := trace ++ [Event.checkConsistency berdyOptions]
    if lib.checkConsistency berdyOptions = false then (trace, Outcome.returned 430) else
    let tests := floatingBaseTests lib options
    (trace ++ tests.1, tests.2)

/-- The function `testBerdyHelpers(fileName)`: `std::unique_ptr<Impl> pImpl;` is declared empty at
line 374 and its initialisation at line 375 is commented out. -/
def testBerdyHelpers (lib : Library) (fileName : String) : List Event × Outcome :=
  let pImpl : Option Impl := none
  testBerdyHelpersFrom pImpl lib fileName

/-- The loop of `main` over the model numbers still to be tested; `IDYNTREE_TESTS_URDFS` and
`getAbsModelPath` come from headers outside `src/`, and `world` gives the library answers for
each file. -/
def mainLoop (IDYNTREE_TESTS_URDFS : Nat → String) (getAbsModelPath : String → String)
    (world : String → Library) : List Nat → List Event × Outcome
  | [] => ([], Outcome.finished)
  | mdl :: rest =>
    let urdfFileName := getAbsModelPath (IDYNTREE_TESTS_URDFS mdl)
    let test := testBerdyHelpers (world urdfFileName) urdfFileName
    if test.2.stopsProcess = true then test else
    let more := mainLoop IDYNTREE_TESTS_URDFS getAbsModelPath world rest
    (test.1 ++ more.1, more.2)

/-- The function `main`, lines 453-463: `for (mdl = 0; mdl < 1; mdl++)`. -/
def main (IDYNTREE_TESTS_URDFS : Nat → String) (getAbsModelPath : String → String)
    (world : String → Library) : List Event × Outcome :=
  mainLoop IDYNTREE_TESTS_URDFS getAbsModelPath world (List.range 1)

/-! ## Properties of an ordering -/

/-- The offsets of the entries of an ordering, in order. -/
def rangeOffsets (ordering : List BerdyDynamicVariable) : List Nat :=
  ordering.map (fun v => v.range.offset)

/-- Two different entries of the ordering share an index of `d`. -/
def HasOverlap (ordering : List BerdyDynamicVariable) : Prop :=
  ∃ i j : Fin ordering.length, i < j ∧ ∃ k, (ordering.get i).covers k ∧ (ordering.get j).covers k

/-- An entry starts after the end of the entry before it. -/
def HasGap (ordering : List BerdyDynamicVariable) : Prop :=
  ∃ i : Nat, ∃ h : i + 1 < ordering.length,
    (ordering.get ⟨i, by omega⟩).range.offset + (ordering.get ⟨i, by omega⟩).range.size
      < (ordering.get ⟨i + 1, h⟩).range.offset

/-- The first entry does not start at `0`. -/
def FirstOffsetNonZero (ordering : List BerdyDynamicVariable) : Prop :=
  ∃ v, ordering.head? = some v ∧ v.range.offset ≠ 0

/-- The count and every offset and size of the ordering are below `2 ^ 53`, the range of the
unsigned integers that `double` holds exactly. -/
def InExactRange (ordering : List BerdyDynamicVariable) (n : Nat) : Prop :=
  n < 2 ^ 53 ∧ ∀ v ∈ ordering, v.range.offset < 2 ^ 53 ∧ v.range.size < 2 ^ 53

/-- An ordering with three contiguous ranges `[0,6)`, `[6,12)`, `[12,13)`. -/
def sampleOrdering : List BerdyDynamicVariable :=
  [⟨BerdyDynamicVariablesTypes.linkAcceleration, "l0", ⟨0, 6⟩⟩,
   ⟨BerdyDynamicVariablesTypes.jointWrench, "j0", ⟨6, 6⟩⟩,
   ⟨BerdyDynamicVariablesTypes.jointTorque, "j0", ⟨12, 1⟩⟩]

/-- Three ranges `[0,6)`, one of size `2 ^ 64 - 1` at offset `6`, and `[5,6)`: the second makes
the accumulator wrap from `6` to `5`. -/
def wrappedOrdering : List BerdyDynamicVariable :=
  [⟨BerdyDynamicVariablesTypes.linkAcceleration, "l0", ⟨0, 6⟩⟩,
   ⟨BerdyDynamicVariablesTypes.jointWrench, "j0", ⟨6, 2 ^ 64 - 1⟩⟩,
   ⟨BerdyDynamicVariablesTypes.jointTorque, "j0", ⟨5, 1⟩⟩]

/-- Two ranges `[0, 2 ^ 53)` and `[2 ^ 53 + 1, 2 ^ 53 + 2)`: index `2 ^ 53` is in neither. -/
def roundedGapOrdering : List BerdyDynamicVariable :=
  [⟨BerdyDynamicVariablesTypes.linkAcceleration, "l0", ⟨0, 2 ^ 53⟩⟩,
   ⟨BerdyDynamicVariablesTypes.jointTorque, "j0", ⟨2 ^ 53 + 1, 1⟩⟩]

/-- An ordering whose second range starts one index too late. -/
def gappedOrdering : List BerdyDynamicVariable :=
  [⟨BerdyDynamicVariablesTypes.linkAcceleration, "l0", ⟨0, 6⟩⟩,
   ⟨BerdyDynamicVariablesTypes.jointWrench, "j0", ⟨7, 6⟩⟩]

/-! ## Reading a trace -/

/-- The event is a call of a kinematics routine: the forward-kinematics oracle or an
`updateKinematicsFrom...` method of the helper. -/
def Event.isKinematicsCall : Event → Bool
  | Event.ForwardPosVelAccKinematics _ _ _ => true
  | Event.updateKinematicsFromFloatingBase _ _ => true
  | Event.updateKinematicsFromFixedBase _ _ _ => true
  | _ => false

/-- The event is one of the library calls made inside `testBerdySensorMatrices` or
`testBerdyOriginalFixedBase`, as opposed to a step of `testBerdyHelpers` itself or a call of one
test function. -/
def Event.isLibraryCall : Event → Bool
  | Event.ForwardPosVelAccKinematics _ _ _ => true
  | Event.RNEADynamicPhase => true
  | Event.updateKinematicsFromFloatingBase _ _ => true
  | Event.updateKinematicsFromFixedBase _ _ _ => true
  | Event.serializeDynamicVariables => true
  | Event.getBerdyMatrices => true
  | Event.predictSensorsMeasurementsFromRawBuffers => true
  | Event.serializeSensorVariables => true
  | _ => false

/-- The steps of `testBerdyHelpers` and the calls of test functions in a trace, in order. -/
def harnessCalls (trace : List Event) : List Event :=
  trace.filter (fun e => !e.isLibraryCall)

/-- The steps of `testBerdyHelpers` and the test functions it calls, in program order, when
nothing stops the execution early. -/
def fullHarnessCalls (lib : Library) (fileName : String) : List Event :=
  [Event.loadModelAndSensorsFromFile fileName,
   Event.skippingFixedBaseMessage,
   Event.init Helper.pImplHelper (hdeOptions lib),
   Event.checkConsistency (hdeOptions lib),
   Event.init Helper.berdyHelper (firstFloatingOptions (fixedBaseOptions lib)),
   Event.testBerdySensorMatrices,
   Event.init Helper.berdyHelper
     (secondFloatingOptions (firstFloatingOptions (fixedBaseOptions lib))),
   Event.testBerdySensorMatrices]

/-- The property "options are validated before init" of a trace: every call of `init` is made
with an options value on which `checkConsistency` was evaluated earlier in the trace and
returned `true`. -/
def InitsValidated (checkConsistency : BerdyOptions → Bool) (trace : List Event) : Prop :=
  ∀ (before : List Event) (helper : Helper) (options : BerdyOptions) (after : List Event),
    trace = before ++ Event.init helper options :: after →
      Event.checkConsistency options ∈ before ∧ checkConsistency options = true

/-! ## Sample inputs -/

/-- A default-constructed `BerdyOptions`. -/
def sampleOptions : BerdyOptions :=
  ⟨BerdyVariants.ORIGINAL_BERDY_FIXED_BASE, "", true, true, true, false, false, []⟩

/-- One random draw for a model with a single joint. -/
def sampleRandom : RandomInverseDynamicsInputs :=
  ⟨⟨⟨(⟨0, 1, 0⟩, ⟨1, 0, 0⟩, ⟨0, 0, 1⟩), ⟨1, 2, 3⟩⟩, [1 / 2]⟩,
   ⟨⟨⟨1, 2, 3⟩, ⟨4, 5, 6⟩⟩, [7]⟩,
   ⟨⟨⟨1, 1, 1⟩, ⟨2, 2, 2⟩⟩, [3]⟩⟩

/-- A run in which every library call succeeds and every comparison holds, without sensors. -/
def sampleRun : BerdyRun :=
  ⟨sampleRandom, true, true, 0, true, true, 0, 0, true, sampleOrdering, 13⟩

/-- A library for which loading, both `init` and `checkConsistency` succeed. -/
def sampleLibrary : Library :=
  ⟨sampleOptions, true, true, 1, fun _ => "joint", "base", fun _ => true, fun _ => true,
    fun _ => true, fun _ _ => sampleRun⟩

/-- The trace of the sample execution up to the first `berdyHelper.init`, with `pImpl` set. -/
def sampleBefore : List Event :=
  [Event.loadModelAndSensorsFromFile "model.urdf",
   Event.skippingFixedBaseMessage,
   Event.init Helper.pImplHelper (hdeOptions sampleLibrary),
   Event.checkConsistency (hdeOptions sampleLibrary)]

/-- The trace of the sample execution after the first `berdyHelper.init`, with `pImpl` set. -/
def sampleAfter : List Event :=
  Event.testBerdySensorMatrices :: (testBerdySensorMatrices sampleRun).1 ++
    Event.init Helper.berdyHelper
      (secondFloatingOptions (firstFloatingOptions (fixedBaseOptions sampleLibrary))) ::
    Event.testBerdySensorMatrices :: (testBerdySensorMatrices sampleRun).1

/-! ## Theorems -/

theorem getValue_setDiagonal (n i j : Nat) :
    ((((List.range n).map (fun k => Triplet.mk (0 + k) (0 + k) (1 : ℚ))).filter
      (fun t => decide (t.row = i ∧ t.column = j))).map Triplet.value).sum
      = if i = j ∧ i < n then 1 else 0 := by
  induction n with
  | zero => simp
  | succ n ih =>
    rw [List.range_succ, List.map_append, List.filter_append, List.map_append, List.sum_append, ih]
    have last : (List.map Triplet.value (List.filter (fun t => decide (t.row = i ∧ t.column = j))
        (List.map (fun k => Triplet.mk (0 + k) (0 + k) (1 : ℚ)) [n]))).sum
        = if n = i ∧ n = j then 1 else 0 := by
      by_cases h : n = i ∧ n = j
      · obtain ⟨h1, h2⟩ := h
        subst h1; subst h2
        simp [List.filter_cons]
      · simp [List.filter_cons, h]
    rw [last]
    split_ifs <;> first | rfl | omega | simp

/-- C10: for every size `n`, zero included, and whatever the matrix held before,
`initializeSparseMatrixSize n matrix` is the `n`-by-`n` identity: `n` rows, `n` columns,
entry `(i, i)` equal to `1` for `i < n` and every off-diagonal entry equal to `0`. -/
theorem initializeSparseMatrixSize_identity (n : Nat) (matrix : SparseMatrix) :
    (initializeSparseMatrixSize n matrix).rows = n ∧
    (initializeSparseMatrixSize n matrix).columns = n ∧
    (∀ i, i < n → (initializeSparseMatrixSize n matrix).getValue i i = 1) ∧
    (∀ i j, i ≠ j → (initializeSparseMatrixSize n matrix).getValue i j = 0) := by
  refine ⟨rfl, rfl, ?_, ?_⟩
  · intro i hi
    have := getValue_setDiagonal n i i
    simp only [initializeSparseMatrixSize, Triplets.setDiagonalMatrix, Triplets.reserve,
      Triplets.empty, SparseMatrix.setFromTriplets, SparseMatrix.resize, SparseMatrix.getValue,
      List.nil_append]
    rw [this]; simp [hi]
  · intro i j hij
    have := getValue_setDiagonal n i j
    simp only [initializeSparseMatrixSize, Triplets.setDiagonalMatrix, Triplets.reserve,
      Triplets.empty, SparseMatrix.setFromTriplets, SparseMatrix.resize, SparseMatrix.getValue,
      List.nil_append]
    rw [this]; simp [hij]

/-! ### The contiguity check -/

theorem toDouble_of_lt (n : Nat) (h : n < 2 ^ 53) : toDouble n = n := by
  unfold toDouble
  rw [if_pos h]

theorem droppedBits_le (steps n : Nat) (h : 2 ^ 53 ≤ n) :
    2 ^ (52 + droppedBits steps n) ≤ n := by
  induction steps generalizing n with
  | zero =>
    simp only [droppedBits, Nat.add_zero]
    exact le_trans (by norm_num) h
  | succ steps ih =>
    simp only [droppedBits, if_neg (Nat.not_lt.mpr h)]
    by_cases h2 : 2 ^ 53 ≤ n / 2
    · have := ih (n / 2) h2
      have h3 : 2 ^ (52 + (droppedBits steps (n / 2) + 1))
          = 2 * 2 ^ (52 + droppedBits steps (n / 2)) := by
        rw [← Nat.add_assoc, pow_succ, Nat.mul_comm]
      rw [h3]
      omega
    · have h0 : droppedBits steps (n / 2) = 0 := by
        cases steps with
        | zero => rfl
        | succ k => simp only [droppedBits, if_pos (Nat.not_le.mp h2)]
      rw [h0]
      exact h

theorem droppedBits_pos (steps n : Nat) (h : 2 ^ 53 ≤ n) : 1 ≤ droppedBits (steps + 1) n := by
  simp only [droppedBits, if_neg (Nat.not_lt.mpr h)]
  omega

theorem toDouble_ge (n : Nat) (h : 2 ^ 53 ≤ n) : 2 ^ 53 ≤ toDouble n := by
  have hq : 2 ^ 52 ≤ n / 2 ^ droppedBits 64 n := by
    rw [Nat.le_div_iff_mul_le (by positivity)]
    calc 2 ^ 52 * 2 ^ droppedBits 64 n = 2 ^ (52 + droppedBits 64 n) := by rw [pow_add]
      _ ≤ n := droppedBits_le 64 n h
  have h2 : 2 ≤ 2 ^ droppedBits 64 n := by
    calc 2 = 2 ^ 1 := rfl
      _ ≤ 2 ^ droppedBits 64 n := Nat.pow_le_pow_right (by norm_num) (droppedBits_pos 63 n h)
  have base : 2 ^ 53 ≤ n / 2 ^ droppedBits 64 n * 2 ^ droppedBits 64 n := by
    calc 2 ^ 53 = 2 ^ 52 * 2 := by norm_num
      _ ≤ n / 2 ^ droppedBits 64 n * 2 ^ droppedBits 64 n := Nat.mul_le_mul hq h2
  have base2 : 2 ^ 53 ≤ (n / 2 ^ droppedBits 64 n + 1) * 2 ^ droppedBits 64 n :=
    le_trans base (Nat.mul_le_mul_right _ (Nat.le_succ _))
  unfold toDouble
  rw [if_neg (Nat.not_lt.mpr h)]
  simp only []
  split_ifs <;> assumption

theorem toDouble_eq_iff (a b : Nat) (hb : b < 2 ^ 53) : toDouble a = toDouble b ↔ a = b := by
  constructor
  · intro h
    rw [toDouble_of_lt b hb] at h
    by_cases ha : a < 2 ^ 53
    · rw [toDouble_of_lt a ha] at h; exact h
    · have := toDouble_ge a (Nat.not_lt.mp ha)
      omega
  · intro h; rw [h]

theorem assert_equal_double_right (a b : Nat) (hb : b < 2 ^ 53) :
    ASSERT_EQUAL_DOUBLE a b = true ↔ a = b := by
  simp [ASSERT_EQUAL_DOUBLE, toDouble_eq_iff a b hb]

theorem assert_equal_double_left (a b : Nat) (ha : a < 2 ^ 53) :
    ASSERT_EQUAL_DOUBLE a b = true ↔ a = b := by
  simp only [ASSERT_EQUAL_DOUBLE, decide_eq_true_eq]
  rw [eq_comm, toDouble_eq_iff b a ha, eq_comm]

theorem serializationLoop_eq_exact (ord : List BerdyDynamicVariable) (acc : Nat)
    (hacc : acc < 2 ^ 54)
    (hb : ∀ v ∈ ord, v.range.offset < 2 ^ 53 ∧ v.range.size < 2 ^ 53) :
    serializationLoop ord acc = exactSerializationLoop ord acc := by
  induction ord generalizing acc with
  | nil => rfl
  | cons v rest ih =>
    have hv := hb v (List.mem_cons_self _ _)
    have hrest : ∀ u ∈ rest, u.range.offset < 2 ^ 53 ∧ u.range.size < 2 ^ 53 :=
      fun u hu => hb u (List.mem_cons_of_mem _ hu)
    simp only [serializationLoop, exactSerializationLoop,
      assert_equal_double_right acc v.range.offset hv.1]
    by_cases h : acc = v.range.offset
    · rw [if_pos h, if_pos h]
      have hsum : acc + v.range.size < 2 ^ 54 := by
        have h1 := hv.1
        have h2 := hv.2
        norm_num at h1 h2 ⊢
        omega
      have hmod : (acc + v.range.size) % 2 ^ 64 = acc + v.range.size :=
        Nat.mod_eq_of_lt (lt_trans hsum (by norm_num))
      rw [hmod]
      exact ih _ hsum hrest
    · rw [if_neg h, if_neg h]

theorem exactLoop_some_iff (ord : List BerdyDynamicVariable) (acc a : Nat) :
    exactSerializationLoop ord acc = some a ↔
      (rangeOffsets ord
          = (List.range ord.length).map (fun i => acc + ((rangeSizes ord).take i).sum) ∧
        a = acc + (rangeSizes ord).sum) := by
  induction ord generalizing acc with
  | nil => simp [exactSerializationLoop, rangeOffsets, rangeSizes, eq_comm]
  | cons v rest ih =>
    simp only [exactSerializationLoop, rangeOffsets, rangeSizes, List.map_cons, List.length_cons,
      List.range_succ_eq_map, List.take_zero, List.sum_nil, Nat.add_zero, List.map_map,
      List.sum_cons, List.cons.injEq]
    by_cases h : acc = v.range.offset
    · rw [if_pos h, ih]
      simp only [rangeOffsets, rangeSizes, h, true_and, Nat.add_assoc]
      constructor
      · rintro ⟨h1, h2⟩
        refine ⟨?_, h2⟩
        rw [h1]
        apply List.map_congr_left
        intro i _
        simp
      · rintro ⟨h1, h2⟩
        refine ⟨?_, h2⟩
        rw [h1]
        apply List.map_congr_left
        intro i _
        simp
    · rw [if_neg h]
      constructor
      · intro h1; cases h1
      · intro h1; exact absurd h1.1.1.symm h

theorem serialization_finished_iff (ord : List BerdyDynamicVariable) (n : Nat)
    (hb : InExactRange ord n) :
    testBerdyOriginalFixedBaseDynamicEquationSerialization ord n = Outcome.finished ↔
      exactSerializationLoop ord 0 = some n := by
  unfold testBerdyOriginalFixedBaseDynamicEquationSerialization
  rw [serializationLoop_eq_exact ord 0 (by norm_num) hb.2]
  cases h : exactSerializationLoop ord 0 with
  | none => simp
  | some a =>
    simp only [assert_equal_double_left n a hb.1, Option.some.injEq]
    by_cases h2 : n = a
    · simp [h2]
    · rw [if_neg h2]
      constructor
      · intro h3; cases h3
      · intro h3; exact absurd h3.symm h2

theorem exactLoop_layout (ord : List BerdyDynamicVariable) (acc a : Nat)
    (h : exactSerializationLoop ord acc = some a) :
    acc ≤ a ∧
    ord.Pairwise (fun u v => u.range.offset + u.range.size ≤ v.range.offset) ∧
    (∀ v ∈ ord, acc ≤ v.range.offset ∧ v.range.offset + v.range.size ≤ a) ∧
    (∀ k, (acc ≤ k ∧ k < a) ↔ ∃ v ∈ ord, v.covers k) := by
  induction ord generalizing acc with
  | nil =>
    simp only [exactSerializationLoop, Option.some.injEq] at h
    subst h
    simp
  | cons v rest ih =>
    simp only [exactSerializationLoop] at h
    by_cases hv : acc = v.range.offset
    · rw [if_pos hv] at h
      obtain ⟨h1, h2, h3, h4⟩ := ih _ h
      refine ⟨by omega, ?_, ?_, ?_⟩
      · rw [List.pairwise_cons]
        refine ⟨fun u hu => ?_, h2⟩
        have := (h3 u hu).1
        omega
      · intro u hu
        rcases List.mem_cons.mp hu with rfl | hu
        · omega
        · have := h3 u hu
          omega
      · intro k
        simp only [List.mem_cons, exists_eq_or_imp, BerdyDynamicVariable.covers]
        have h4k := h4 k
        simp only [BerdyDynamicVariable.covers] at h4k
        rw [← h4k]
        omega
    · rw [if_neg hv] at h
      cases h

theorem exactLoop_chain (ord : List BerdyDynamicVariable) (acc a : Nat)
    (h : exactSerializationLoop ord acc = some a) :
    ord.Chain' (fun u v => v.range.offset = u.range.offset + u.range.size) ∧
    (∀ v, ord.head? = some v → v.range.offset = acc) := by
  induction ord generalizing acc with
  | nil => simp
  | cons v rest ih =>
    simp only [exactSerializationLoop] at h
    by_cases hv : acc = v.range.offset
    · rw [if_pos hv] at h
      obtain ⟨h1, h2⟩ := ih _ h
      refine ⟨?_, ?_⟩
      · rw [List.chain'_cons']
        refine ⟨fun u hu => ?_, h1⟩
        rw [h2 u hu, hv]
      · intro u hu
        simp only [List.head?_cons, Option.some.injEq] at hu
        subst hu
        exact hv.symm
    · rw [if_neg hv] at h
      cases h

/-- C7, as amended: for a count and ranges whose offsets and sizes are all below `2 ^ 53`, every
ordering accepted by `testBerdyOriginalFixedBaseDynamicEquationSerialization` is non-overlapping
and gapless: when no assertion of the check fails, the intervals `[offset, offset + size)` of two
different entries are disjoint and their union is exactly `[0, n)`; conversely a sequence with a
gap, an overlap, a non-zero first offset or a total different from `n` makes an assertion of
the check fail. -/
theorem accepted_ordering_is_partition (ord : List BerdyDynamicVariable) (n : Nat)
    (hb : InExactRange ord n) :
    (testBerdyOriginalFixedBaseDynamicEquationSerialization ord n = Outcome.finished →
      (∀ i j : Fin ord.length, i < j → ∀ k, ¬ ((ord.get i).covers k ∧ (ord.get j).covers k)) ∧
      (∀ k, k < n ↔ ∃ v ∈ ord, v.covers k)) ∧
    (HasGap ord ∨ HasOverlap ord ∨ FirstOffsetNonZero ord ∨ (rangeSizes ord).sum ≠ n →
      testBerdyOriginalFixedBaseDynamicEquationSerialization ord n ≠ Outcome.finished) := by
  have fwd : testBerdyOriginalFixedBaseDynamicEquationSerialization ord n = Outcome.finished →
      (∀ i j : Fin ord.length, i < j → ∀ k, ¬ ((ord.get i).covers k ∧ (ord.get j).covers k)) ∧
      (∀ k, k < n ↔ ∃ v ∈ ord, v.covers k) := by
    intro h
    rw [serialization_finished_iff ord n hb] at h
    obtain ⟨_, h2, _, h4⟩ := exactLoop_layout ord 0 n h
    refine ⟨?_, ?_⟩
    · intro i j hij k hk
      have := List.pairwise_iff_get.mp h2 i j hij
      simp only [BerdyDynamicVariable.covers] at hk
      omega
    · intro k
      rw [← h4 k]
      omega
  refine ⟨fwd, ?_⟩
  intro hbad hfin
  have hpart := fwd hfin
  rw [serialization_finished_iff ord n hb] at hfin
  have hchain := exactLoop_chain ord 0 n hfin
  rcases hbad with hgap | hover | hfirst | htotal
  · obtain ⟨i, hi, hlt⟩ := hgap
    have := (List.chain'_iff_get.mp hchain.1) i (by omega)
    omega
  · obtain ⟨i, j, hij, k, hk⟩ := hover
    exact hpart.1 i j hij k hk
  · obtain ⟨v, hv, hne⟩ := hfirst
    exact hne (hchain.2 v hv)
  · have := ((exactLoop_some_iff ord 0 n).mp hfin).2
    omega

/-- C7 at the ordering `[0,6)`, `[6,12)`, `[12,13)` with count `13`, and at an ordering with a
gap. -/
theorem accepted_ordering_is_partition_witness :
    (InExactRange sampleOrdering 13 ∧
      testBerdyOriginalFixedBaseDynamicEquationSerialization sampleOrdering 13
        = Outcome.finished ∧
      ((∀ i j : Fin sampleOrdering.length, i < j →
          ∀ k, ¬ ((sampleOrdering.get i).covers k ∧ (sampleOrdering.get j).covers k)) ∧
        (∀ k, k < 13 ↔ ∃ v ∈ sampleOrdering, v.covers k))) ∧
    (InExactRange gappedOrdering 13 ∧ HasGap gappedOrdering ∧
      testBerdyOriginalFixedBaseDynamicEquationSerialization gappedOrdering 13
        ≠ Outcome.finished) :=
  ⟨⟨⟨by decide, by decide⟩, by decide,
    (accepted_ordering_is_partition sampleOrdering 13 ⟨by decide, by decide⟩).1 (by decide)⟩,
   ⟨⟨by decide, by decide⟩, ⟨0, by decide, by decide⟩,
    (accepted_ordering_is_partition gappedOrdering 13 ⟨by decide, by decide⟩).2
      (Or.inl ⟨0, by decide, by decide⟩)⟩⟩

/-- C7 fails as stated.  The check accepts `[0,6)`, a range of size `2 ^ 64 - 1` at offset `6`
and `[5,6)` with the count `6`, because the `size_t` accumulator wraps from `6` to `5`, although
the first and the third range share index `5`.  It also accepts `[0, 2 ^ 53)` followed by
`[2 ^ 53 + 1, 2 ^ 53 + 2)` with the count `2 ^ 53`, because `2 ^ 53` and `2 ^ 53 + 1` convert to
the same `double`, although there is a gap and the sizes sum to `2 ^ 53 + 1`. -/
theorem check_accepts_overlap_and_gap :
    (testBerdyOriginalFixedBaseDynamicEquationSerialization wrappedOrdering 6
        = Outcome.finished ∧ HasOverlap wrappedOrdering) ∧
    (testBerdyOriginalFixedBaseDynamicEquationSerialization roundedGapOrdering (2 ^ 53)
        = Outcome.finished ∧ HasGap roundedGapOrdering ∧
      (rangeSizes roundedGapOrdering).sum ≠ 2 ^ 53) := by
  refine ⟨⟨by decide, ?_⟩, by decide, ⟨0, by decide, by decide⟩, by decide⟩
  exact ⟨⟨0, by decide⟩, ⟨2, by decide⟩, by decide, 5, by decide, by decide⟩

/-! ### The fixed-base scenario -/

/-- C5: in `testBerdyOriginalFixedBase`, for every random draw, the kinematics calls are exactly
the forward-kinematics oracle and `updateKinematicsFromFixedBase`; the gravity passed to the
latter is `(0,0,-10)`, and the oracle receives the identity world-to-base transform, a zero base
velocity and a base acceleration with zero angular part and linear part `(0,0,10)`, which is
the negation of the gravity. -/
theorem fixed_base_inputs_forced (run : BerdyRun) :
    (testBerdyOriginalFixedBase run).1.filter Event.isKinematicsCall
      = [Event.ForwardPosVelAccKinematics
          ⟨Transform.Identity, run.random.pos.jointPos⟩
          ⟨⟨⟨0, 0, 0⟩, ⟨0, 0, 0⟩⟩, run.random.vel.jointVel⟩
          ⟨⟨⟨0, 0, 10⟩, ⟨0, 0, 0⟩⟩, run.random.generalizedProperAccs.jointAcc⟩,
         Event.updateKinematicsFromFixedBase run.random.pos.jointPos run.random.vel.jointVel
          ⟨0, 0, -10⟩] ∧
    (⟨0, 0, 10⟩ : Vector3) = Vector3.neg ⟨0, 0, -10⟩ := by
  refine ⟨?_, ?_⟩
  · simp only [testBerdyOriginalFixedBase, fixedBaseSensorBlock, Vector3.zero, Vector3.set,
      Vector3.get, SpatialMotionVector.zero, SpatialMotionVector.setLinearVec3, neg_neg]
    split_ifs <;> simp [Event.isKinematicsCall, List.filter_cons]
  · simp [Vector3.neg]

/-! ### The calls made by `testBerdyHelpers` -/

theorem harnessCalls_append (a b : List Event) :
    harnessCalls (a ++ b) = harnessCalls a ++ harnessCalls b := by
  simp [harnessCalls]

theorem harnessCalls_cons (e : Event) (l : List Event) :
    harnessCalls (e :: l) = if e.isLibraryCall = true then harnessCalls l else e :: harnessCalls l := by
  cases h : e.isLibraryCall <;> simp [harnessCalls, List.filter_cons, h]

theorem harnessCalls_nil : harnessCalls [] = [] := rfl

theorem harnessCalls_testBerdySensorMatrices (run : BerdyRun) :
    harnessCalls (testBerdySensorMatrices run).1 = [] := by
  simp only [testBerdySensorMatrices, sensorMatricesSensorBlock]
  split_ifs <;> simp [harnessCalls, Event.isLibraryCall, List.filter_cons]

theorem fixedBaseBranch_skips (options : BerdyOptions) :
    fixedBaseBranch options = ([Event.skippingFixedBaseMessage], options) := by
  simp [fixedBaseBranch]

theorem harnessCalls_testBerdyHelpersFrom (pImpl : Option Impl) (lib : Library)
    (fileName : String) :
    ∃ n, harnessCalls (testBerdyHelpersFrom pImpl lib fileName).1
          = (fullHarnessCalls lib fileName).take n ∧
      (5 ≤ n → lib.checkConsistency (hdeOptions lib) = true) ∧
      (pImpl = none → n ≤ 2) ∧
      (n < 2 → (testBerdyHelpersFrom pImpl lib fileName).2 = Outcome.assertFailed 371 ∨
        (testBerdyHelpersFrom pImpl lib fileName).2 = Outcome.assertFailed 372) := by
  have hs := harnessCalls_testBerdySensorMatrices
  cases pImpl with
  | none =>
    simp only [testBerdyHelpersFrom, fixedBaseBranch_skips]
    split_ifs
    · exact ⟨1, by simp [harnessCalls, fullHarnessCalls, Event.isLibraryCall], by omega,
        by omega, by simp⟩
    · exact ⟨1, by simp [harnessCalls, fullHarnessCalls, Event.isLibraryCall], by omega,
        by omega, by simp⟩
    · exact ⟨2, by simp [harnessCalls, fullHarnessCalls, Event.isLibraryCall], by omega,
        by omega, by omega⟩
  | some impl =>
    simp only [testBerdyHelpersFrom, fixedBaseBranch_skips, floatingBaseTests]
    split_ifs
    · exact ⟨1, by simp [harnessCalls, fullHarnessCalls, Event.isLibraryCall], by omega,
        by simp, by simp⟩
    · exact ⟨1, by simp [harnessCalls, fullHarnessCalls, Event.isLibraryCall], by omega,
        by simp, by simp⟩
    · exact ⟨3, by simp [harnessCalls, fullHarnessCalls, Event.isLibraryCall], by omega,
        by simp, by omega⟩
    · exact ⟨4, by simp [harnessCalls, fullHarnessCalls, Event.isLibraryCall], by omega,
        by simp, by omega⟩
    · exact ⟨5, by simp [harnessCalls, fullHarnessCalls, Event.isLibraryCall],
        by simp_all, by simp, by omega⟩
    · refine ⟨6, ?_, by simp_all, by simp, by omega⟩
      simp [harnessCalls_append, harnessCalls_cons, harnessCalls_nil, hs, fullHarnessCalls,
        Event.isLibraryCall]
    · refine ⟨7, ?_, by simp_all, by simp, by omega⟩
      simp [harnessCalls_append, harnessCalls_cons, harnessCalls_nil, hs, fullHarnessCalls,
        Event.isLibraryCall]
    · refine ⟨8, ?_, by simp_all, by simp, by omega⟩
      simp [harnessCalls_append, harnessCalls_cons, harnessCalls_nil, hs, fullHarnessCalls,
        Event.isLibraryCall]

theorem mem_of_mem_harnessCalls (e : Event) (trace : List Event) (h : e ∈ harnessCalls trace) :
    e ∈ trace :=
  (List.mem_filter.mp h).1

theorem mem_harnessCalls (e : Event) (trace : List Event) (h : e ∈ trace)
    (hl : e.isLibraryCall = false) : e ∈ harnessCalls trace :=
  List.mem_filter.mpr ⟨h, by simp [hl]⟩

theorem mem_fullHarnessCalls (pImpl : Option Impl) (lib : Library) (fileName : String)
    (e : Event) (h : e ∈ (testBerdyHelpersFrom pImpl lib fileName).1)
    (hl : e.isLibraryCall = false) : e ∈ fullHarnessCalls lib fileName := by
  obtain ⟨n, hn, _⟩ := harnessCalls_testBerdyHelpersFrom pImpl lib fileName
  have := mem_harnessCalls e _ h hl
  rw [hn] at this
  exact List.mem_of_mem_take this

theorem split_at_length {α : Type} (l X Y : List α) (e : α) (h : l = X ++ e :: Y) :
    X = l.take X.length ∧ l[X.length]? = some e := by
  subst h
  refine ⟨by simp, ?_⟩
  rw [List.getElem?_append_right (Nat.le_refl _)]
  simp

theorem hdeOptions_ne_floating (lib : Library) :
    firstFloatingOptions (fixedBaseOptions lib) ≠ hdeOptions lib ∧
    secondFloatingOptions (firstFloatingOptions (fixedBaseOptions lib)) ≠ hdeOptions lib := by
  have h1 : (firstFloatingOptions (fixedBaseOptions lib)).includeAllNetExternalWrenchesAsSensors
      = false := by
    simp only [firstFloatingOptions, fixedBaseOptions]
    split_ifs <;> rfl
  have h2 : (secondFloatingOptions (firstFloatingOptions
      (fixedBaseOptions lib))).includeAllNetExternalWrenchesAsSensors = false := by
    simp only [secondFloatingOptions, firstFloatingOptions, fixedBaseOptions]
    split_ifs <;> rfl
  have h3 : (hdeOptions lib).includeAllNetExternalWrenchesAsSensors = true := rfl
  constructor
  · intro h; rw [h, h3] at h1; cases h1
  · intro h; rw [h, h3] at h2; cases h2

/-- Program order of the body of `testBerdyHelpers`, whatever `pImpl` holds: each call
`berdyHelper.init` of the floating-base tests comes after `checkConsistency` has been evaluated
on `berdyOptions` and has returned `true`; the options value passed to that `init` is not the
value checked, and `checkConsistency` is never evaluated on it. -/
theorem floating_init_after_hde_check (pImpl : Option Impl) (lib : Library) (fileName : String)
    (before after : List Event) (options : BerdyOptions)
    (h : (testBerdyHelpersFrom pImpl lib fileName).1
      = before ++ Event.init Helper.berdyHelper options :: after) :
    Event.checkConsistency (hdeOptions lib) ∈ before ∧
    lib.checkConsistency (hdeOptions lib) = true ∧
    options ≠ hdeOptions lib ∧
    Event.checkConsistency options ∉ (testBerdyHelpersFrom pImpl lib fileName).1 := by
  obtain ⟨n, hn, hcheck, _, _⟩ := harnessCalls_testBerdyHelpersFrom pImpl lib fileName
  have hne := hdeOptions_ne_floating lib
  rw [h, harnessCalls_append, harnessCalls_cons] at hn
  simp only [Event.isLibraryCall, Bool.false_eq_true, if_false] at hn
  have hfull : fullHarnessCalls lib fileName
      = harnessCalls before ++ Event.init Helper.berdyHelper options ::
          (harnessCalls after ++ (fullHarnessCalls lib fileName).drop n) := by
    conv_lhs => rw [← List.take_append_drop n (fullHarnessCalls lib fileName), ← hn]
    simp
  obtain ⟨hX, hget⟩ := split_at_length _ _ _ _ hfull
  have hlen : (harnessCalls before).length + 1 + (harnessCalls after).length
      = ((fullHarnessCalls lib fileName).take n).length := by
    rw [← hn]; simp; omega
  have hlen8 : (fullHarnessCalls lib fileName).length = 8 := rfl
  have hm : (harnessCalls before).length < 8 := by
    have := congrArg List.length hfull
    simp only [List.length_append, List.length_cons] at this
    omega
  rw [List.length_take, hlen8] at hlen
  generalize hmdef : (harnessCalls before).length = m at hX hget hlen hm
  have key : (m = 4 ∧ options = firstFloatingOptions (fixedBaseOptions lib)) ∨
      (m = 6 ∧ options = secondFloatingOptions (firstFloatingOptions (fixedBaseOptions lib))) := by
    interval_cases m <;> simp [fullHarnessCalls] at hget
    · exact Or.inl ⟨rfl, hget.symm⟩
    · exact Or.inr ⟨rfl, hget.symm⟩
  have hmem : Event.checkConsistency (hdeOptions lib) ∈ before := by
    apply mem_of_mem_harnessCalls
    rw [hX]
    rcases key with ⟨rfl, _⟩ | ⟨rfl, _⟩ <;> simp [fullHarnessCalls]
  have hopt : options ≠ hdeOptions lib := by
    rcases key with ⟨_, rfl⟩ | ⟨_, rfl⟩
    · exact hne.1
    · exact hne.2
  refine ⟨hmem, hcheck (by rcases key with ⟨rfl, _⟩ | ⟨rfl, _⟩ <;> omega), hopt, ?_⟩
  intro hc
  have := mem_fullHarnessCalls pImpl lib fileName _ hc rfl
  simp [fullHarnessCalls] at this
  exact hopt this

/-- The program order at the sample library with `pImpl` set: the first `berdyHelper.init`
comes after the successful check of `berdyOptions`, a different value. -/
theorem floating_init_after_hde_check_witness :
    (testBerdyHelpersFrom (some Impl.mk) sampleLibrary "model.urdf").1
        = sampleBefore ++ Event.init Helper.berdyHelper
            (firstFloatingOptions (fixedBaseOptions sampleLibrary)) :: sampleAfter ∧
      (Event.checkConsistency (hdeOptions sampleLibrary) ∈ sampleBefore ∧
        sampleLibrary.checkConsistency (hdeOptions sampleLibrary) = true ∧
        firstFloatingOptions (fixedBaseOptions sampleLibrary) ≠ hdeOptions sampleLibrary ∧
        Event.checkConsistency (firstFloatingOptions (fixedBaseOptions sampleLibrary))
          ∉ (testBerdyHelpersFrom (some Impl.mk) sampleLibrary "model.urdf").1) :=
  ⟨rfl, floating_init_after_hde_check (some Impl.mk) sampleLibrary "model.urdf" sampleBefore
    sampleAfter _ rfl⟩

/-- The order of lines 422 and 428.  With the empty `pImpl` of the source the execution on the
sample library stops at the dereference of line 422, with no `checkConsistency` evaluated
before.  Were `pImpl` set, `init` would be called on `berdyOptions` at line 422 before any
`checkConsistency`, and the trace would not satisfy `InitsValidated`. -/
theorem init_not_preceded_by_check :
    (testBerdyHelpers sampleLibrary "model.urdf").2 = Outcome.emptyPImplDereferenced 422 ∧
    (∀ o, Event.checkConsistency o ∉ (testBerdyHelpers sampleLibrary "model.urdf").1) ∧
    ¬ InitsValidated sampleLibrary.checkConsistency
        (testBerdyHelpersFrom (some Impl.mk) sampleLibrary "model.urdf").1 := by
  refine ⟨rfl, ?_, ?_⟩
  · intro o
    have : (testBerdyHelpers sampleLibrary "model.urdf").1
        = [Event.loadModelAndSensorsFromFile "model.urdf", Event.skippingFixedBaseMessage] := rfl
    simp [this]
  · intro h
    have := (h [Event.loadModelAndSensorsFromFile "model.urdf", Event.skippingFixedBaseMessage]
      Helper.pImplHelper (hdeOptions sampleLibrary)
      (Event.checkConsistency (hdeOptions sampleLibrary) ::
        Event.init Helper.berdyHelper (firstFloatingOptions (fixedBaseOptions sampleLibrary)) ::
        sampleAfter) rfl).1
    simp at this

/-- C8: the `ORIGINAL_BERDY_FIXED_BASE` path is disabled for every model file and whatever
`pImpl` holds: the fixed-base branch finds `ok` false and takes the skip branch, so every
execution that passes the two loading assertions records the skip message, none records the
"testing" message, no `init` is ever called with `berdyVariant = ORIGINAL_BERDY_FIXED_BASE`, and
`testBerdyOriginalFixedBase` is never called. -/
theorem fixed_base_path_disabled (pImpl : Option Impl) (lib : Library) (fileName : String) :
    fixedBaseBranch (fixedBaseOptions lib)
      = ([Event.skippingFixedBaseMessage], fixedBaseOptions lib) ∧
    ((testBerdyHelpersFrom pImpl lib fileName).2 = Outcome.assertFailed 371 ∨
      (testBerdyHelpersFrom pImpl lib fileName).2 = Outcome.assertFailed 372 ∨
      Event.skippingFixedBaseMessage ∈ (testBerdyHelpersFrom pImpl lib fileName).1) ∧
    Event.testingFixedBaseMessage ∉ (testBerdyHelpersFrom pImpl lib fileName).1 ∧
    (∀ helper options, Event.init helper options ∈ (testBerdyHelpersFrom pImpl lib fileName).1 →
      options.berdyVariant = BerdyVariants.BERDY_FLOATING_BASE) ∧
    Event.testBerdyOriginalFixedBase ∉ (testBerdyHelpersFrom pImpl lib fileName).1 := by
  refine ⟨fixedBaseBranch_skips _, ?_, ?_, ?_, ?_⟩
  · obtain ⟨n, hn, _, _, hsmall⟩ := harnessCalls_testBerdyHelpersFrom pImpl lib fileName
    by_cases h2 : n < 2
    · rcases hsmall h2 with h | h
      · exact Or.inl h
      · exact Or.inr (Or.inl h)
    · refine Or.inr (Or.inr (mem_of_mem_harnessCalls _ _ ?_))
      rw [hn]
      obtain ⟨k, rfl⟩ : ∃ k, n = k + 2 := ⟨n - 2, by omega⟩
      simp [fullHarnessCalls]
  · intro h
    have := mem_fullHarnessCalls pImpl lib fileName _ h rfl
    simp [fullHarnessCalls] at this
  · intro helper options h
    have := mem_fullHarnessCalls pImpl lib fileName _ h rfl
    simp only [fullHarnessCalls, List.mem_cons, Event.init.injEq, reduceCtorEq, false_or,
      or_false, List.mem_singleton, List.not_mem_nil] at this
    rcases this with ⟨_, rfl⟩ | ⟨_, rfl⟩ | ⟨_, rfl⟩ <;> rfl
  · intro h
    have := mem_fullHarnessCalls pImpl lib fileName _ h rfl
    simp [fullHarnessCalls] at this

/-- C8 at the sample library with `pImpl` set: the first `berdyHelper.init` is in the trace, and
its variant is the floating-base one. -/
theorem fixed_base_path_disabled_witness :
    Event.init Helper.berdyHelper (firstFloatingOptions (fixedBaseOptions sampleLibrary))
        ∈ (testBerdyHelpersFrom (some Impl.mk) sampleLibrary "model.urdf").1 ∧
      (firstFloatingOptions (fixedBaseOptions sampleLibrary)).berdyVariant
        = BerdyVariants.BERDY_FLOATING_BASE :=
  ⟨by decide,
    (fixed_base_path_disabled (some Impl.mk) sampleLibrary "model.urdf").2.2.2.1
      Helper.berdyHelper _ (by decide)⟩

/-! ### The serialization-only test -/

theorem main_trace (IDYNTREE_TESTS_URDFS : Nat → String) (getAbsModelPath : String → String)
    (world : String → Library) :
    (main IDYNTREE_TESTS_URDFS getAbsModelPath world).1
      = (testBerdyHelpers (world (getAbsModelPath (IDYNTREE_TESTS_URDFS 0)))
          (getAbsModelPath (IDYNTREE_TESTS_URDFS 0))).1 := by
  simp only [main, List.range_succ, List.range_zero, List.nil_append, mainLoop]
  split_ifs <;> simp

theorem serialization_event_not_in_helpers (pImpl : Option Impl) (lib : Library)
    (fileName : String) :
    Event.testBerdyOriginalFixedBaseDynamicEquationSerialization
      ∉ (testBerdyHelpersFrom pImpl lib fileName).1 := by
  intro h
  have := mem_fullHarnessCalls pImpl lib fileName _ h rfl
  simp [fullHarnessCalls] at this

theorem fixed_base_event_not_in_helpers (pImpl : Option Impl) (lib : Library)
    (fileName : String) :
    Event.testBerdyOriginalFixedBase ∉ (testBerdyHelpersFrom pImpl lib fileName).1 := by
  intro h
  have := mem_fullHarnessCalls pImpl lib fileName _ h rfl
  simp [fullHarnessCalls] at this

/-- C9 fails as stated: there is no execution of `main`, and none of `testBerdyHelpers` on any
model file, in which `testBerdyOriginalFixedBaseDynamicEquationSerialization` is called. -/
theorem serialization_test_called_nowhere :
    (¬ ∃ (IDYNTREE_TESTS_URDFS : Nat → String) (getAbsModelPath : String → String)
        (world : String → Library),
        Event.testBerdyOriginalFixedBaseDynamicEquationSerialization
          ∈ (main IDYNTREE_TESTS_URDFS getAbsModelPath world).1) ∧
    (¬ ∃ (lib : Library) (fileName : String),
        Event.testBerdyOriginalFixedBaseDynamicEquationSerialization
          ∈ (testBerdyHelpers lib fileName).1) := by
  refine ⟨?_, ?_⟩
  · rintro ⟨urdfs, absPath, world, h⟩
    rw [main_trace] at h
    exact serialization_event_not_in_helpers none _ _ h
  · rintro ⟨lib, fileName, h⟩
    exact serialization_event_not_in_helpers none _ _ h

/-- C9, as amended: the serialization-only test does not exercise the fixed-base variant either.
In no execution of `main`, and in no execution of the body of `testBerdyHelpers` whatever
`pImpl` holds, is `testBerdyOriginalFixedBaseDynamicEquationSerialization` or its caller
`testBerdyOriginalFixedBase` called; `testBerdySensorMatrices` does not call it, and
`testBerdyOriginalFixedBase` calls it unless one of its assertions stops the process. -/
theorem serialization_test_only_in_fixed_base (IDYNTREE_TESTS_URDFS : Nat → String)
    (getAbsModelPath : String → String) (world : String → Library) (pImpl : Option Impl)
    (lib : Library) (fileName : String) (run : BerdyRun) :
    Event.testBerdyOriginalFixedBaseDynamicEquationSerialization
      ∉ (main IDYNTREE_TESTS_URDFS getAbsModelPath world).1 ∧
    Event.testBerdyOriginalFixedBase ∉ (main IDYNTREE_TESTS_URDFS getAbsModelPath world).1 ∧
    Event.testBerdyOriginalFixedBaseDynamicEquationSerialization
      ∉ (testBerdyHelpersFrom pImpl lib fileName).1 ∧
    Event.testBerdyOriginalFixedBase ∉ (testBerdyHelpersFrom pImpl lib fileName).1 ∧
    Event.testBerdyOriginalFixedBaseDynamicEquationSerialization
      ∉ (testBerdySensorMatrices run).1 ∧
    (Event.testBerdyOriginalFixedBaseDynamicEquationSerialization
        ∈ (testBerdyOriginalFixedBase run).1 ∨
      (testBerdyOriginalFixedBase run).2.stopsProcess = true) := by
  refine ⟨?_, ?_, serialization_event_not_in_helpers _ _ _, fixed_base_event_not_in_helpers _ _ _,
    ?_, ?_⟩
  · rw [main_trace]
    exact serialization_event_not_in_helpers none _ _
  · rw [main_trace]
    exact fixed_base_event_not_in_helpers none _ _
  · intro h
    have := mem_harnessCalls _ _ h rfl
    rw [harnessCalls_testBerdySensorMatrices] at this
    simp at this
  · simp only [testBerdyOriginalFixedBase, fixedBaseSensorBlock]
    split_ifs <;> simp_all [Outcome.stopsProcess]

/-! ### The empty `pImpl` -/

/-- C11: in `testBerdyHelpers` the pointer `pImpl` is empty when line 422 is reached, so every
execution that passes the two loading assertions ends by dereferencing the empty `pImpl` at the
HDE init step, and no execution finishes.  Consequently no execution records an `init` call,
a `checkConsistency` call or a call of `testBerdySensorMatrices`: the floating-base tests are
never reached, although the same body with `pImpl` set does reach them. -/
theorem empty_pImpl_stops_before_floating_tests (lib : Library) (fileName : String) :
    testBerdyHelpers lib fileName = testBerdyHelpersFrom none lib fileName ∧
    (testBerdyHelpers lib fileName).2
      = (if lib.sensorsIsConsistent = false then Outcome.assertFailed 371
         else if lib.loadModelAndSensorsFromFile = false then Outcome.assertFailed 372
         else Outcome.emptyPImplDereferenced 422) ∧
    (testBerdyHelpers lib fileName).2 ≠ Outcome.finished ∧
    (∀ helper options, Event.init helper options ∉ (testBerdyHelpers lib fileName).1) ∧
    (∀ options, Event.checkConsistency options ∉ (testBerdyHelpers lib fileName).1) ∧
    Event.testBerdySensorMatrices ∉ (testBerdyHelpers lib fileName).1 ∧
    Event.testBerdySensorMatrices
      ∈ (testBerdyHelpersFrom (some Impl.mk) sampleLibrary "model.urdf").1 := by
  refine ⟨rfl, ?_, ?_, ?_, ?_, ?_, by decide⟩
  · simp only [testBerdyHelpers, testBerdyHelpersFrom, fixedBaseBranch_skips]
    split_ifs <;> rfl
  · simp only [testBerdyHelpers, testBerdyHelpersFrom, fixedBaseBranch_skips]
    split_ifs <;> simp
  · intro helper options
    simp only [testBerdyHelpers, testBerdyHelpersFrom, fixedBaseBranch_skips]
    split_ifs <;> simp
  · intro options
    simp only [testBerdyHelpers, testBerdyHelpersFrom, fixedBaseBranch_skips]
    split_ifs <;> simp
  · simp only [testBerdyHelpers, testBerdyHelpersFrom, fixedBaseBranch_skips]
    split_ifs <;> simp

end BerdyUnitTest
